import Mathlib

set_option maxRecDepth 8192

/-!
Verification development for the Health_Monitoring_System repository.

The client-side reading store (`app/src/store/readingStore.ts`, the
soft-clamp variant), the aggregator (`app/src/result/ResultContainer.tsx`)
and the device firmware (`project.ino`) are shallowly embedded below.
JavaScript numbers and C `float`s are modelled as rationals (`ℚ`); a value
that fails `Number.isFinite` (NaN / undefined / null / non-number) is
modelled as `Option.none`.  C integer arithmetic uses `Int` with
truncating division (`Int.tdiv`), matching C semantics; device timestamps
(`millis()`, `unsigned long`) are modelled as `ℕ`, with natural (truncated)
subtraction coinciding with the unsigned subtraction of the source for the
monotone clocks in play.
-/

namespace HMS

/-! ## ReadingStore data model (`readingStore.ts`) -/

/-- An inbound candidate reading (TS `SensorReading` as received): every
field may fail `isFiniteNum`.  For `humidity` the source distinguishes
null/undefined (no bounds check) from a present non-finite value (bounds
check fails), hence the two-level `Option`: `none` = null/undefined,
`some none` = present but not a finite number, `some (some q)` = finite. -/
structure Candidate where
  heartRate : Option ℚ
  bodyTempC : Option ℚ
  ambientTempC : Option ℚ
  humidity : Option (Option ℚ)
  timestamp : Option ℚ
  mlxObjectC : Option ℚ
  mlxAmbientC : Option ℚ

/-- A buffered reading: validation guarantees the four required fields are
finite; humidity (and the pass-through MLX fields) stay optional. -/
structure Reading where
  heartRate : ℚ
  bodyTempC : ℚ
  ambientTempC : ℚ
  humidity : Option ℚ
  timestamp : ℚ
  mlxObjectC : Option ℚ
  mlxAmbientC : Option ℚ
deriving DecidableEq

/-- `const WINDOW_MS = 3600_000` -/
def WINDOW_MS : ℚ := 3600000

/-- `JUMP = { hr: 50, body: 1, amb: 2.0, hum: 15 }` -/
def JUMP_hr : ℚ := 50
def JUMP_body : ℚ := 1
def JUMP_amb : ℚ := 2
def JUMP_hum : ℚ := 15

/-- `ROC_PER_SEC = { hr: 40, body: 0.6, amb: 3.0, hum: 20 }` -/
def ROC_hr : ℚ := 40
def ROC_body : ℚ := 6/10
def ROC_amb : ℚ := 3
def ROC_hum : ℚ := 20

/-- `const USE_HAMPEL = false` -/
def USE_HAMPEL : Bool := false

/-- `RELAX.skipChecksIfPrevOlderThanMs = 5000` -/
def STALE_MS : ℚ := 5000

/-- TS `inBounds(v, min, max)`: `isFiniteNum(v) && v >= min && v <= max`. -/
def inBounds (v : Option ℚ) (lo hi : ℚ) : Bool :=
  match v with
  | some x => decide (lo ≤ x ∧ x ≤ hi)
  | none => false

/-- JS `Math.sign`. -/
def sign (q : ℚ) : ℚ := if 0 < q then 1 else if q < 0 then -1 else 0

/-- TS `softClampToward(prev, cur, limit)`. -/
def softClampToward (prev cur limit : ℚ) : ℚ :=
  let delta := cur - prev
  if |delta| ≤ limit then cur else prev + sign delta * limit

/-- TS `median` (JS ascending numeric sort, then middle element(s)).
Only evaluated on non-empty lists by its one caller. -/
def median (arr : List ℚ) : ℚ :=
  let a := arr.mergeSort (fun x y => decide (x ≤ y))
  let n := a.length
  if n % 2 = 1 then a.getD ((n - 1) / 2) 0
  else (a.getD (n / 2 - 1) 0 + a.getD (n / 2) 0) / 2

/-- TS `mad(arr, med) = 1.4826 * median(|x - med|)`. -/
def mad (arr : List ℚ) (med : ℚ) : ℚ :=
  (14826/10000) * median (arr.map fun x => |x - med|)

/-- TS `hampelOutlier` (dead code: `USE_HAMPEL` is `false`).  `series`
entries are possibly-NaN numbers; `current` is finite at every call site. -/
def hampelOutlier (current : ℚ) (series : List (Option ℚ)) : Bool :=
  let tail := (series.filterMap id).drop ((series.filterMap id).length - 9)
  if tail.length < max 5 (9 / 2) then false
  else
    let med := median tail
    let m0 := mad tail med
    let m := if m0 = 0 then 1/1000000 else m0
    decide (|current - med| > 3 * m)

/-- TS `pruneOld()`: pop from the front while the oldest element is older
than `now - WINDOW_MS` (`now` = `Date.now()` at the call). -/
def pruneOld (now : ℚ) (buf : List Reading) : List Reading :=
  buf.dropWhile (fun r => decide (r.timestamp < now - WINDOW_MS))

/-- The continuity section of `addReading` (jump then ROC checks against
the previous accepted reading, `prevIsStale` bypass).  Mirrors the source
statement by statement; two source statements compute a clamp and discard
the result (`softClampToward(prev.bodyTempC, body, JUMP.body);` and the
matching `amb` / ROC-`hr` lines), so the corresponding local is left
unchanged here, exactly as in the code. -/
def continuity (prev c : Reading) : Reading :=
  let dtMs := c.timestamp - prev.timestamp
  let dtSec := max (1/1000) (dtMs / 1000)
  if dtMs > STALE_MS then c
  else
    let hr := c.heartRate
    let body := c.bodyTempC
    let amb := c.ambientTempC
    let hum := c.humidity
    -- ----- Absolute jump checks with soft clamp -----
    let hrJump := |hr - prev.heartRate|
    let humJump := match hum, prev.humidity with
      | some h, some ph => |h - ph|
      | _, _ => 0
    let hr := if hrJump > JUMP_hr then softClampToward prev.heartRate hr JUMP_hr else hr
    -- `if (bodyJump > JUMP.body) { softClampToward(...); }`: result discarded
    -- `if (ambJump > JUMP.amb) { softClampToward(...); }`: result discarded
    let hum := match hum, prev.humidity with
      | some h, some ph =>
          if humJump > JUMP_hum then some (softClampToward ph h JUMP_hum) else some h
      | h, _ => h
    -- ----- ROC checks with soft clamp -----
    let maxBody := ROC_body * dtSec
    let maxAmb := ROC_amb * dtSec
    let maxHum := ROC_hum * dtSec
    -- `if (hrROC > maxHr) { softClampToward(...); }`: result discarded
    let body := if |body - prev.bodyTempC| > maxBody
      then softClampToward prev.bodyTempC body maxBody else body
    let amb := if |amb - prev.ambientTempC| > maxAmb
      then softClampToward prev.ambientTempC amb maxAmb else amb
    let hum := match hum, prev.humidity with
      | some h, some ph =>
          if |h - ph| > maxHum then some (softClampToward ph h maxHum) else some h
      | h, _ => h
    -- apply clamped values: `r = { ...r, heartRate: hr, ... }`
    { c with heartRate := hr, bodyTempC := body, ambientTempC := amb, humidity := hum }

/-- The stored humidity value: `isFiniteNum(r.humidity)` collapses
null/undefined and a present non-finite value alike to "absent". -/
def humField (h : Option (Option ℚ)) : Option ℚ :=
  match h with
  | some (some q) => some q
  | _ => none

/-- The basic-validity test of `addReading` (all four required fields pass
`isFiniteNum`), returning the extracted values on success. -/
def validFields (r : Candidate) : Option (ℚ × ℚ × ℚ × ℚ) :=
  match r.heartRate, r.bodyTempC, r.ambientTempC, r.timestamp with
  | some hr, some body, some amb, some ts => some (hr, body, amb, ts)
  | _, _, _, _ => none

/-- The hard range check of `addReading` (negated reject condition). -/
def boundsOk (hr body amb : ℚ) (hum : Option (Option ℚ)) : Bool :=
  inBounds (some hr) 30 220 && inBounds (some body) 20 42 &&
  inBounds (some amb) (-30) 60 &&
  (match hum with
   | none => true          -- `r.humidity != null` is false: no check
   | some hv => inBounds hv 0 100)

/-- The Hampel reject test of `addReading` (dead: `USE_HAMPEL = false`). -/
def hampelReject (buf : List Reading) (c : Reading) : Bool :=
  hampelOutlier c.heartRate (buf.map fun x => some x.heartRate) ||
  hampelOutlier c.bodyTempC (buf.map fun x => some x.bodyTempC) ||
  hampelOutlier c.ambientTempC (buf.map fun x => some x.ambientTempC) ||
  (match c.humidity with
   | some h => hampelOutlier h (buf.map fun x => x.humidity)
   | none => false)

/-- TS `addReading(r)` (soft-clamp variant, the store actually imported by
the app).  `now` is `Date.now()` at call time; the buffer is threaded
explicitly.  Every exit path runs `pruneOld`, as in the source. -/
def addReading (now : ℚ) (r : Candidate) (buf : List Reading) : List Reading :=
  match validFields r with
  | none => pruneOld now buf
  | some (hr, body, amb, ts) =>
    if boundsOk hr body amb r.humidity = false then pruneOld now buf
    else
      let c0 : Reading :=
        { heartRate := hr, bodyTempC := body, ambientTempC := amb
          humidity := humField r.humidity
          timestamp := ts, mlxObjectC := r.mlxObjectC, mlxAmbientC := r.mlxAmbientC }
      let c := match buf.getLast? with
        | some prev => continuity prev c0
        | none => c0
      if USE_HAMPEL && hampelReject buf c then pruneOld now buf
      else pruneOld now (buf ++ [c])

/-- TS `getLastHourReadings(from, to)`: filter to `[lo, hi]` inclusive. -/
def getLastHourReadings (lo hi : ℚ) (buf : List Reading) : List Reading :=
  buf.filter (fun r => decide (lo ≤ r.timestamp ∧ r.timestamp ≤ hi))

/-! ## Aggregator (`ResultContainer.tsx`) -/

/-- The `avg` closure of `computeAggregates`: keep the entries passing
`Number.isFinite`, return `null` for an empty result, else sum/length. -/
def avg (ns : List (Option ℚ)) : Option ℚ :=
  let a := ns.filterMap id
  if a.length = 0 then none else some (a.sum / a.length)

structure Aggregates where
  hrMean : Option ℚ
  bodyMean : Option ℚ
  ambMean : Option ℚ
  humidityMean : Option ℚ
  mlxObjMean : Option ℚ
  mlxAmbMean : Option ℚ
  coveragePct : ℚ
deriving DecidableEq

/-- TS `computeAggregates()`; `now` is `Date.now()` and the store buffer is
passed explicitly.  Returns the aggregates and `recentCount`. -/
def computeAggregates (now : ℚ) (buf : List Reading) : Aggregates × ℕ :=
  let rows := getLastHourReadings (now - 3600000) now buf
  ({ hrMean := avg (rows.map fun r => some r.heartRate)
     bodyMean := avg (rows.map fun r => some r.bodyTempC)
     ambMean := avg (rows.map fun r => some r.ambientTempC)
     humidityMean := avg (rows.map fun r => r.humidity)
     mlxObjMean := avg (rows.map fun r => r.mlxObjectC)
     mlxAmbMean := avg (rows.map fun r => r.mlxAmbientC)
     coveragePct := min ((rows.length : ℚ) / 3600) 1 },
   rows.length)

/-- Modelled from the spec: the client-side local fallback classification
(spec §4.5) used when the AI-summary collaborator is unavailable.  The
classifier module itself is not among the provided source files — only its
caller (`runLLM`'s fallback path in `ResultContainer.tsx`) is — so this
definition follows the spec's words: "bad" if mean heart rate > 100 OR
mean body temperature > 37.8 °C; "good" if mean heart rate ∈ [55,85] AND
mean body temperature ∈ [36.0,37.2] °C; otherwise "fine"; a null mean
makes any comparison "condition not met". -/
def localClassify (hrMean bodyMean : Option ℚ) : String :=
  let gtN : Option ℚ → ℚ → Bool := fun x c =>
    match x with | some v => decide (c < v) | none => false
  let inR : Option ℚ → ℚ → ℚ → Bool := fun x lo hi =>
    match x with | some v => decide (lo ≤ v ∧ v ≤ hi) | none => false
  if gtN hrMean 100 || gtN bodyMean (378/10) then "bad"
  else if inR hrMean 55 85 && inR bodyMean 36 (372/10) then "good"
  else "fine"

/-! ## PulseDetector (`project.ino`, `taskPulse`) -/

/-- The per-process-lifetime state of `taskPulse` together with the shared
globals it writes (`g_bpm`, `g_lastBeatMs`).  The 4-slot circular buffer
`float bpmBuf[4]` is a function on indices (only `0..3` are ever written). -/
structure PulseState where
  lp : ℤ
  baseline : ℤ
  thresh : ℤ
  inPeak : Bool
  lastBeatMs : ℕ
  bpmBuf : ℕ → ℚ
  bpmIdx : ℕ
  bpmCount : ℕ
  g_bpm : ℚ
  g_lastBeatMs : ℕ

/-- State after the warm-up phase (first 200 samples averaged into
`baseline`, `lp = baseline`, `thresh = 120`, globals zero-initialised). -/
def initPulse (baseline0 : ℤ) : PulseState :=
  { lp := baseline0, baseline := baseline0, thresh := 120, inPeak := false
    lastBeatMs := 0, bpmBuf := fun _ => 0, bpmIdx := 0, bpmCount := 0
    g_bpm := 0, g_lastBeatMs := 0 }

/-- `lp + ((raw - lp) * LP_ALPHA) / 16` with `LP_ALPHA = 8` (C `/` truncates). -/
def lpOf (s : PulseState) (raw : ℤ) : ℤ := s.lp + ((raw - s.lp) * 8).tdiv 16

/-- `ac = lp - baseline` (with the freshly updated `lp`). -/
def acOf (s : PulseState) (raw : ℤ) : ℤ := lpOf s raw - s.baseline

/-- The adaptive threshold after this sample's update, floored at 30. -/
def threshOf (s : PulseState) (raw : ℤ) : ℤ :=
  let a := |acOf s raw|
  let t := if a > s.thresh then (3 * s.thresh + a).tdiv 4 else (15 * s.thresh).tdiv 16
  if t < 30 then 30 else t

/-- The rising-edge (beat registration) condition of `taskPulse`:
`!inPeak && ac > thresh && (now - lastBeatMs) > MIN_IBI_MS`. -/
def beatCond (s : PulseState) (raw : ℤ) (now : ℕ) : Bool :=
  !s.inPeak && decide (threshOf s raw < acOf s raw) && decide (300 < now - s.lastBeatMs)

/-- The BPM push: `bpmBuf[bpmIdx] = 60000/ibi; bpmIdx = (bpmIdx+1)%4;
if (bpmCount<4) bpmCount++; g_bpm = (Σ_{i<bpmCount} bpmBuf[i]) / bpmCount`. -/
def pushBpm (s : PulseState) (ibi : ℕ) : PulseState :=
  let bpm : ℚ := 60000 / (ibi : ℚ)
  let buf := Function.update s.bpmBuf s.bpmIdx bpm
  let idx := (s.bpmIdx + 1) % 4
  let count := if s.bpmCount < 4 then s.bpmCount + 1 else s.bpmCount
  let acc := ∑ i ∈ Finset.range count, buf i
  { s with bpmBuf := buf, bpmIdx := idx, bpmCount := count, g_bpm := acc / (count : ℚ) }

/-- The beat-detection block of `taskPulse`: on a rising edge, push the
instantaneous BPM when a previous beat exists and `300 < ibi < 1500`, mark
"inside peak" and stamp the beat time (local and shared). -/
def pulseBeatPhase (s : PulseState) (raw : ℤ) (now : ℕ) : PulseState :=
  if beatCond s raw now then
    let ibi := now - s.lastBeatMs
    let s' := if 0 < s.lastBeatMs ∧ 300 < ibi ∧ ibi < 1500 then pushBpm s ibi else s
    { s' with inPeak := true, lastBeatMs := now, g_lastBeatMs := now }
  else s

/-- `taskPulse` loop body up to (not including) the silence timeout:
beat detection, persisting the filter state (`lp`, `baseline`, `thresh`),
and the end-of-peak zero crossing. -/
def pulsePreTimeout (s : PulseState) (raw : ℤ) (now : ℕ) : PulseState :=
  let s1 := pulseBeatPhase s raw now
  let s2 := { s1 with lp := lpOf s raw, baseline := s.baseline + (raw - s.baseline).tdiv 128
                      thresh := threshOf s raw }
  if s2.inPeak ∧ acOf s raw < 0 then { s2 with inPeak := false } else s2

/-- One iteration of the `taskPulse` loop body on sample `raw` at time
`now` (`millis()`), in source order: filters, beat detection (pushing BPM
when a previous beat exists and `300 < ibi < 1500`), end-of-peak zero
crossing, then the 3000 ms silence timeout (`if (now - g_lastBeatMs >
3000) g_bpm = 0`). -/
def pulseStep (s : PulseState) (raw : ℤ) (now : ℕ) : PulseState :=
  let s3 := pulsePreTimeout s raw now
  if 3000 < now - s3.g_lastBeatMs then { s3 with g_bpm := 0 } else s3

/-- The states `taskPulse` can reach from the end of warm-up. -/
inductive PulseReachable : PulseState → Prop
  | init (b : ℤ) : PulseReachable (initPulse b)
  | step {s : PulseState} (raw : ℤ) (now : ℕ) :
      PulseReachable s → PulseReachable (pulseStep s raw now)

/-! ## EnvironmentSampler (`project.ino`, `taskDHT` + MLX90614 helpers) -/

/-- The shared environment snapshot (`g_temp`, `g_hum`, `g_mlxAmb`,
`g_mlxObj`); `none` models `NAN`. -/
structure EnvSnapshot where
  g_temp : Option ℚ
  g_hum : Option ℚ
  g_mlxAmb : Option ℚ
  g_mlxObj : Option ℚ
deriving DecidableEq

/-- `mlxRawToC(raw) = raw * 0.02f - 273.15f` on a 16-bit register value. -/
def mlxRawToC (raw : ℕ) : ℚ := (raw : ℚ) * (2/100) - 27315/100

/-- `readMLX90614`: read registers 0x06 (ambient) and 0x07 (object); fail
(returning `false`, modelled `none`) if either word read fails, else
convert both.  The register reads are modelled as `Option ℕ` inputs. -/
def readMLX90614 (ambRaw objRaw : Option ℕ) : Option (ℚ × ℚ) :=
  match ambRaw with
  | none => none
  | some a =>
    match objRaw with
    | none => none
    | some o => some (mlxRawToC a, mlxRawToC o)

/-- One iteration of the `taskDHT` loop body: DHT update only when both
`readTemperature()` and `readHumidity()` are non-NaN, MLX update to the
converted values on success and to `NAN`/`NAN` on failure. -/
def envStep (snap : EnvSnapshot) (t h : Option ℚ) (ambRaw objRaw : Option ℕ) :
    EnvSnapshot :=
  let snap1 := match t, h with
    | some tv, some hv => { snap with g_temp := some tv, g_hum := some hv }
    | _, _ => snap
  match readMLX90614 ambRaw objRaw with
  | some (a, o) => { snap1 with g_mlxAmb := some a, g_mlxObj := some o }
  | none => { snap1 with g_mlxAmb := none, g_mlxObj := none }

/-! ## Auxiliary predicates and concrete fixtures -/

/-- The strengthened inductive invariant of `taskPulse`: the circular
buffer bookkeeping (`bpmCount ≤ 4`, write index in range and equal to the
fill count while filling), every valid slot holding an instantaneous BPM
strictly between 40 and 200, and the reported BPM being 0 or strictly
between 40 and 200. -/
def PulseInv (s : PulseState) : Prop :=
  s.bpmCount ≤ 4 ∧ s.bpmIdx < 4 ∧ (s.bpmCount < 4 → s.bpmIdx = s.bpmCount) ∧
  (∀ i < s.bpmCount, 40 < s.bpmBuf i ∧ s.bpmBuf i < 200) ∧
  (s.g_bpm = 0 ∨ (40 < s.g_bpm ∧ s.g_bpm < 200))

/-- Timestamp-sortedness of the buffer (spec: "front-to-back timestamps
non-decreasing under normal operation"). -/
def SortedTS (buf : List Reading) : Prop :=
  buf.Pairwise fun a b => a.timestamp ≤ b.timestamp

/-- An accepted reading at time 0: HR 80, body 36 °C, ambient 20 °C,
humidity 50 %. -/
def cexPrev : Reading := ⟨80, 36, 20, some 50, 0, none, none⟩

/-- A candidate at time 5000 ms whose body temperature jumps by 2.5 °C
(beyond the 1 °C jump limit) while staying inside the 3 °C/s-scaled ROC
allowance; all other fields are unchanged. -/
def cexBodyCand : Candidate := ⟨some 80, some (77/2), some 20, some (some 50), some 5000, none, none⟩

/-- The reading the store actually appends for `cexBodyCand`: the body
temperature is stored raw (38.5 °C), not clamped. -/
def cexBodyStored : Reading := ⟨80, 77/2, 20, some 50, 5000, none, none⟩

/-- A candidate with a non-finite heart rate (rejected at basic validity). -/
def cexInvalidCand : Candidate := ⟨none, some 36, some 20, none, some 4000000, none, none⟩

/-- A valid candidate at time 0 with all fields in bounds. -/
def cexTs0Cand : Candidate := ⟨some 80, some 36, some 20, none, some 0, none, none⟩

/-- The reading the store appends for `cexTs0Cand`. -/
def cexTs0Stored : Reading := ⟨80, 36, 20, none, 0, none, none⟩

/-- A candidate at time 1000 ms whose heart rate jumps from 80 to 140
(beyond the 50 bpm jump limit). -/
def cexHrCand : Candidate := ⟨some 140, some 36, some 20, none, some 1000, none, none⟩

/-- A pulse state just after warm-up except that one beat was registered
at t = 1 ms (empty BPM buffer). -/
def cexPulse : PulseState := ⟨0, 0, 120, false, 1, (fun _ => 0), 0, 0, 0, 1⟩

/-- Three readings with heart rates 60, 70, 80 at t = 0, 1, 2 min. -/
def aggBuf : List Reading :=
  [⟨60, 36, 20, none, 0, none, none⟩, ⟨70, 36, 20, none, 60000, none, none⟩,
   ⟨80, 36, 20, none, 120000, none, none⟩]

/-! ## Helper lemmas -/

/-- An element of a list that is not in its `dropWhile` residue satisfied
the predicate (it was in the dropped prefix). -/
theorem pred_of_not_mem_dropWhile {α : Type} {p : α → Bool} :
    ∀ (l : List α) (x : α), x ∈ l → x ∉ l.dropWhile p → p x = true := by
  intro l
  induction l with
  | nil => intro x hx; cases hx
  | cons a t ih =>
    intro x hx hnx
    by_cases ha : p a = true
    · rw [List.dropWhile_cons_of_pos ha] at hnx
      rcases List.mem_cons.mp hx with rfl | hxt
      · exact ha
      · exact ih x hxt hnx
    · rw [List.dropWhile_cons_of_neg ha] at hnx
      exact absurd hx hnx

/-- On a timestamp-sorted buffer, every survivor of `pruneOld` is within
the retention window. -/
theorem pruneOld_mem_ge (now : ℚ) :
    ∀ (buf : List Reading), SortedTS buf →
      ∀ x ∈ pruneOld now buf, now - WINDOW_MS ≤ x.timestamp := by
  intro buf
  induction buf with
  | nil => intro _ x hx; simp [pruneOld] at hx
  | cons a t ih =>
    intro hs x hx
    rcases List.pairwise_cons.mp hs with ⟨hat, ht⟩
    by_cases ha : a.timestamp < now - WINDOW_MS
    · rw [pruneOld, List.dropWhile_cons_of_pos (by simpa using ha)] at hx
      exact ih ht x hx
    · rw [pruneOld, List.dropWhile_cons_of_neg (by simpa using ha)] at hx
      rcases List.mem_cons.mp hx with rfl | hxt
      · exact le_of_not_lt ha
      · exact le_trans (le_of_not_lt ha) (hat x hxt)

/-- `dropWhile` keeps the last element of a list when that element fails
the predicate. -/
theorem dropWhile_append_singleton_getLast {α : Type} {p : α → Bool} (a : α)
    (hpa : p a = false) :
    ∀ l : List α, ((l ++ [a]).dropWhile p).getLast? = some a := by
  intro l
  induction l with
  | nil =>
    rw [List.nil_append, List.dropWhile_cons_of_neg (by simp [hpa])]
    rfl
  | cons b t ih =>
    rw [List.cons_append]
    by_cases hb : p b = true
    · rw [List.dropWhile_cons_of_pos hb]; exact ih
    · rw [List.dropWhile_cons_of_neg hb, ← List.cons_append,
        List.getLast?_append_cons]
      rfl

/-- `continuity` never changes the candidate's timestamp. -/
theorem continuity_timestamp (prev c : Reading) :
    (continuity prev c).timestamp = c.timestamp := by
  simp only [continuity]
  split <;> rfl

/-- `softClampToward` lands exactly at distance `limit` from `prev`
whenever the incoming value is farther than `limit` (for `0 ≤ limit`). -/
theorem softClampToward_dist (prev cur limit : ℚ) (h0 : 0 ≤ limit)
    (h : limit < |cur - prev|) :
    |softClampToward prev cur limit - prev| = limit := by
  unfold softClampToward sign
  rw [if_neg (not_le.mpr h)]
  rcases lt_trichotomy (cur - prev) 0 with hneg | hzero | hpos
  · rw [if_neg (by linarith), if_pos hneg]
    simp [abs_of_nonpos, h0, abs_of_nonneg]
  · rw [hzero, abs_zero] at h; linarith
  · rw [if_pos hpos]
    simp [abs_of_nonneg, h0]

/-- Every exit of `addReading` is `pruneOld` of either the old buffer or
the old buffer with one (possibly clamped) reading appended whose
timestamp is the candidate's. -/
theorem addReading_cases (now : ℚ) (r : Candidate) (buf : List Reading) :
    addReading now r buf = pruneOld now buf ∨
    ∃ c ts, r.timestamp = some ts ∧ c.timestamp = ts ∧
      addReading now r buf = pruneOld now (buf ++ [c]) := by
  rcases r with ⟨ohr, obody, oamb, ohum, ots, omo, oma⟩
  rcases ohr with _ | hr
  · left; rfl
  rcases obody with _ | body
  · left; rfl
  rcases oamb with _ | amb
  · left; rfl
  rcases ots with _ | ts
  · left; rfl
  by_cases hb : boundsOk hr body amb ohum = false
  · left
    simp only [addReading, validFields]
    rw [if_pos hb]
  · right
    have hb' : boundsOk hr body amb ohum = true := by
      cases hbo : boundsOk hr body amb ohum
      · exact absurd hbo hb
      · rfl
    rcases hlast : buf.getLast? with _ | prev
    · refine ⟨⟨hr, body, amb, humField ohum, ts, omo, oma⟩, ts, rfl, rfl, ?_⟩
      simp only [addReading, validFields, hb', hlast, USE_HAMPEL, Bool.false_and,
        Bool.false_eq_true, Bool.true_eq_false, if_false]
    · refine ⟨continuity prev ⟨hr, body, amb, humField ohum, ts, omo, oma⟩,
        ts, rfl, continuity_timestamp prev _, ?_⟩
      simp only [addReading, validFields, hb', hlast, USE_HAMPEL, Bool.false_and,
        Bool.false_eq_true, Bool.true_eq_false, if_false]


/-! ## Claim C1 -/

/-- C1: the claim says every field whose jump exceeds its per-sample limit
is soft-clamped, so the stored value stays within the jump limit of the
previous accepted value.  The code computes the body-temperature clamp but
discards its result (`softClampToward(prev.bodyTempC, body, JUMP.body);`
is a no-op statement), contradicting the store's own header comment
("Soft-clamps excessive jumps/ROC ... instead of hard drop").  At this
input (previous body 36 °C, candidate 38.5 °C, gap 5000 ms), the jump of
2.5 °C exceeds the 1 °C limit, yet the reading is stored with the raw
38.5 °C, 2.5 °C away from the previous value. -/
theorem addReading_discards_body_clamp :
    JUMP_body < |cexBodyCand.bodyTempC.getD 0 - cexPrev.bodyTempC| ∧
    cexBodyCand.timestamp.getD 0 - cexPrev.timestamp ≤ STALE_MS ∧
    addReading 5000 cexBodyCand [cexPrev] = [cexPrev, cexBodyStored] ∧
    JUMP_body < |cexBodyStored.bodyTempC - cexPrev.bodyTempC| := by
  refine ⟨by norm_num [cexBodyCand, cexPrev, JUMP_body, abs_of_nonneg],
          by norm_num [cexBodyCand, cexPrev, STALE_MS], ?_,
          by norm_num [cexBodyStored, cexPrev, JUMP_body, abs_of_nonneg]⟩
  norm_num [addReading, validFields, boundsOk, inBounds, continuity,
    softClampToward, sign, pruneOld, USE_HAMPEL, humField, cexBodyCand, cexPrev,
    cexBodyStored, WINDOW_MS, STALE_MS, JUMP_hr, JUMP_body, JUMP_amb, JUMP_hum,
    ROC_hr, ROC_body, ROC_amb, ROC_hum, List.dropWhile, List.getLast?,
    abs_of_nonneg, abs_of_neg, abs_of_pos, abs_of_nonpos, Reading.mk.injEq]

/-! ## Claim C2 -/

/-- C2 counterexample: the claim says a rejected reading leaves the buffer
completely unchanged ("no element removed").  Rejection paths still run
`pruneOld()`: rejecting a candidate with a non-finite heart rate at
`Date.now() = 4 000 000` evicts the hour-old buffered element. -/
theorem addReading_reject_prunes_cex :
    validFields cexInvalidCand = none ∧
    cexPrev ∈ [cexPrev] ∧
    addReading 4000000 cexInvalidCand [cexPrev] = [] := by
  refine ⟨rfl, by simp, ?_⟩
  norm_num [addReading, validFields, pruneOld, cexInvalidCand, cexPrev,
    WINDOW_MS, List.dropWhile]

/-- C2 (amended): a reading rejected at basic validity or at the hard
bounds adds nothing and changes the buffer only by the `pruneOld` pass:
the result is a sublist of the old buffer, and every removed element was
older than the retention cutoff `now − WINDOW_MS`. -/
theorem addReading_reject_eq_prune (now : ℚ) (r : Candidate) (buf : List Reading)
    (hrej : validFields r = none ∨
      ∃ hr body amb ts, validFields r = some (hr, body, amb, ts) ∧
        boundsOk hr body amb r.humidity = false) :
    addReading now r buf = pruneOld now buf ∧
    (addReading now r buf).Sublist buf ∧
    ∀ x ∈ buf, x ∉ addReading now r buf → x.timestamp < now - WINDOW_MS := by
  have heq : addReading now r buf = pruneOld now buf := by
    rcases hrej with hv | ⟨hr, body, amb, ts, hv, hb⟩
    · simp only [addReading, hv]
    · simp only [addReading, hv]
      rw [if_pos hb]
  refine ⟨heq, ?_, ?_⟩
  · rw [heq]
    exact (List.dropWhile_suffix _).sublist
  · intro x hx hnx
    rw [heq] at hnx
    have h := pred_of_not_mem_dropWhile buf x hx hnx
    simpa using h

/-- C2 witness: the amended fact at the concrete rejection above. -/
theorem addReading_reject_eq_prune_w :
    addReading 4000000 cexInvalidCand [cexPrev] = pruneOld 4000000 [cexPrev] :=
  (addReading_reject_eq_prune 4000000 cexInvalidCand [cexPrev] (Or.inl rfl)).1


/-! ## Claim C5 -/

/-- On a non-stale previous reading, the continuity pass stores the
heart rate soft-clamped at the jump limit when the jump check fires, and
the (discarded) ROC clamp leaves it untouched. -/
theorem continuity_heartRate (prev c : Reading)
    (hfresh : ¬(c.timestamp - prev.timestamp > STALE_MS)) :
    (continuity prev c).heartRate =
      if JUMP_hr < |c.heartRate - prev.heartRate|
      then softClampToward prev.heartRate c.heartRate JUMP_hr
      else c.heartRate := by
  simp only [continuity]
  rw [if_neg hfresh]

/-- C5: when an accepted candidate's heart rate differs from the previous
accepted heart rate by more than the jump limit 50 (previous reading not
stale), the heart-rate value actually stored at the back of the buffer is
at distance exactly 50 from the previous value. -/
theorem addReading_hr_clamp_exact (now : ℚ) (r : Candidate) (buf : List Reading)
    (hr body amb ts : ℚ) (prev : Reading)
    (hv : validFields r = some (hr, body, amb, ts))
    (hb : boundsOk hr body amb r.humidity = true)
    (hlast : buf.getLast? = some prev)
    (hfresh : ts - prev.timestamp ≤ STALE_MS)
    (hjump : JUMP_hr < |hr - prev.heartRate|)
    (hkeep : now - WINDOW_MS ≤ ts) :
    |((addReading now r buf).getLast?.getD prev).heartRate - prev.heartRate|
      = JUMP_hr := by
  rcases r with ⟨ohr, obody, oamb, ohum, ots, omo, oma⟩
  rcases ohr with _ | hr0
  · exact absurd hv (by simp [validFields])
  rcases obody with _ | body0
  · exact absurd hv (by simp [validFields])
  rcases oamb with _ | amb0
  · exact absurd hv (by simp [validFields])
  rcases ots with _ | ts0
  · exact absurd hv (by simp [validFields])
  have hv' : hr0 = hr ∧ body0 = body ∧ amb0 = amb ∧ ts0 = ts := by
    simpa [validFields, Prod.ext_iff] using hv
  obtain ⟨rfl, rfl, rfl, rfl⟩ := hv'
  have hred : addReading now ⟨some hr0, some body0, some amb0, ohum, some ts0, omo, oma⟩ buf
      = pruneOld now (buf ++
          [continuity prev ⟨hr0, body0, amb0, humField ohum, ts0, omo, oma⟩]) := by
    simp only [addReading, validFields, hb, hlast, USE_HAMPEL, Bool.false_and,
      Bool.false_eq_true, Bool.true_eq_false, if_false]
  rw [hred]
  have hts : (continuity prev ⟨hr0, body0, amb0, humField ohum, ts0, omo, oma⟩).timestamp
      = ts0 := continuity_timestamp _ _
  have hkeepc : (fun x : Reading => decide (x.timestamp < now - WINDOW_MS))
      (continuity prev ⟨hr0, body0, amb0, humField ohum, ts0, omo, oma⟩) = false := by
    simp [hts, not_lt.mpr hkeep]
  have hget := dropWhile_append_singleton_getLast
    (p := fun x : Reading => decide (x.timestamp < now - WINDOW_MS))
    (continuity prev ⟨hr0, body0, amb0, humField ohum, ts0, omo, oma⟩) hkeepc buf
  rw [pruneOld, hget]
  have hhr : (continuity prev ⟨hr0, body0, amb0, humField ohum, ts0, omo, oma⟩).heartRate
      = softClampToward prev.heartRate hr0 JUMP_hr := by
    rw [continuity_heartRate prev _ (by simpa using not_lt.mpr hfresh)]
    exact if_pos (by simpa using hjump)
  simp only [Option.getD_some, hhr]
  exact softClampToward_dist prev.heartRate hr0 JUMP_hr (by norm_num [JUMP_hr])
    (by simpa using hjump)

/-- C5 witness: previous HR 80 at t = 0, candidate HR 140 at t = 1000 ms;
the stored heart rate is at distance exactly 50 from 80. -/
theorem addReading_hr_clamp_exact_w :
    |((addReading 1000 cexHrCand [cexPrev]).getLast?.getD cexPrev).heartRate
      - cexPrev.heartRate| = JUMP_hr :=
  addReading_hr_clamp_exact 1000 cexHrCand [cexPrev] 140 36 20 1000 cexPrev rfl
    (by decide) rfl (by norm_num [STALE_MS, cexPrev])
    (by norm_num [JUMP_hr, cexPrev, abs_of_nonneg])
    (by norm_num [WINDOW_MS])


/-! ## Claim C4 -/

/-- C4 counterexample: the claim says `getWindow` never returns an element
older than (now − 3 600 000 ms) at call time.  `getLastHourReadings` is a
pure filter and never prunes: accept one reading at clock 0, then query
the interval [0, 4 000 000] when the clock reads 4 000 000 — the hour-old
element is returned even though it is older than now − window. -/
theorem getWindow_stale_cex :
    cexTs0Stored ∈ getLastHourReadings 0 4000000 (addReading 0 cexTs0Cand []) ∧
    cexTs0Stored.timestamp < 4000000 - WINDOW_MS := by
  constructor
  · norm_num [addReading, validFields, boundsOk, inBounds, pruneOld, USE_HAMPEL,
      humField, getLastHourReadings, List.filter, cexTs0Cand, cexTs0Stored,
      WINDOW_MS, List.dropWhile]
  · norm_num [cexTs0Stored, WINDOW_MS]

/-- C4 (amended): the pruning guarantee is anchored to the `now` of the
most recent `addReading` call, and needs non-decreasing timestamps: if the
buffer is timestamp-sorted and the candidate's timestamp is not older than
anything buffered, then every element `getWindow` returns after that
`addReading` has a timestamp within `now − WINDOW_MS` for that call's
`now`. At strictly later query times (or with out-of-order timestamps)
older elements can be returned, as the counterexample shows. -/
theorem getWindow_fresh_after_add (now lo hi : ℚ) (r : Candidate)
    (buf : List Reading) (x : Reading)
    (hs : SortedTS buf)
    (hmono : ∀ ts, r.timestamp = some ts → ∀ y ∈ buf, y.timestamp ≤ ts)
    (hx : x ∈ getLastHourReadings lo hi (addReading now r buf)) :
    now - WINDOW_MS ≤ x.timestamp := by
  have hx' : x ∈ addReading now r buf := (List.mem_filter.mp hx).1
  rcases addReading_cases now r buf with h | ⟨c, ts, hts, hcts, h⟩
  · rw [h] at hx'
    exact pruneOld_mem_ge now buf hs x hx'
  · rw [h] at hx'
    refine pruneOld_mem_ge now (buf ++ [c]) ?_ x hx'
    refine List.pairwise_append.mpr ⟨hs, List.pairwise_singleton _ _, ?_⟩
    intro a ha b hb
    simp only [List.mem_singleton] at hb
    subst hb
    rw [hcts]
    exact hmono ts hts a ha

/-- C4 witness: querying at the same clock value (0) as the accepting
`addReading` returns only in-window elements. -/
theorem getWindow_fresh_after_add_w :
    (0 : ℚ) - WINDOW_MS ≤ cexTs0Stored.timestamp :=
  getWindow_fresh_after_add 0 0 0 cexTs0Cand [] cexTs0Stored
    (by simp [SortedTS]) (by simp)
    (by norm_num [addReading, validFields, boundsOk, inBounds, pruneOld,
      USE_HAMPEL, humField, getLastHourReadings, List.filter, cexTs0Cand,
      cexTs0Stored, WINDOW_MS, List.dropWhile])


/-! ## Claim C7 -/

/-- C7: each metric mean is the arithmetic mean over the finite values
only among the returned readings (`null` when no finite sample exists),
coverage is `min(sampleCount / 3600, 1)`, and on readings with heart
rates 60, 70, 80 inside the window the mean heart rate is 70 with
coverage 3/3600 (humidity, absent throughout, aggregates to `null`). -/
theorem computeAggregates_spec :
    (∀ ns : List (Option ℚ),
      (avg ns = none ↔ ns.filterMap id = []) ∧
      (ns.filterMap id ≠ [] →
        avg ns = some ((ns.filterMap id).sum / ((ns.filterMap id).length : ℚ)))) ∧
    (∀ (now : ℚ) (buf : List Reading),
      (computeAggregates now buf).1.coveragePct
        = min (((getLastHourReadings (now - 3600000) now buf).length : ℚ) / 3600) 1) ∧
    (computeAggregates 3600000 aggBuf).1.hrMean = some 70 ∧
    (computeAggregates 3600000 aggBuf).1.humidityMean = none ∧
    (computeAggregates 3600000 aggBuf).1.coveragePct = 3/3600 := by
  refine ⟨?_, fun now buf => rfl, ?_, ?_, ?_⟩
  · intro ns
    by_cases h : (ns.filterMap id).length = 0
    · rw [List.length_eq_zero] at h
      simp [avg, h]
    · have hne : ns.filterMap id ≠ [] := by
        intro he
        rw [he] at h
        exact h rfl
      simp [avg, h, hne]
  · norm_num [computeAggregates, getLastHourReadings, avg, aggBuf,
      List.filter, List.filterMap]
  · norm_num [computeAggregates, getLastHourReadings, avg, aggBuf,
      List.filter, List.filterMap]
  · norm_num [computeAggregates, getLastHourReadings, avg, aggBuf,
      List.filter, List.filterMap]

/-- C7 witness: the general mean characterization applied to a two-entry
list with one finite sample. -/
theorem computeAggregates_spec_w :
    avg [some (1 : ℚ), none] = some 1 := by
  have h := (computeAggregates_spec.1 [some (1 : ℚ), none]).2 (by simp)
  simpa using h

/-! ## Claim C3 -/

/-- C3 (spec-modelled): the local fallback classification returns "bad"
when mean HR > 100 or mean body > 37.8 °C, "good" when mean HR ∈ [55,85]
and mean body ∈ [36.0,37.2] °C, and "fine" otherwise; a null mean makes
any comparison fail (never causing a spurious "bad" or "good"), and the
function is total (never throws). -/
theorem localClassify_spec (hr body : Option ℚ) :
    ((∃ h, hr = some h ∧ 100 < h) ∨ (∃ b, body = some b ∧ 378/10 < b) →
      localClassify hr body = "bad") ∧
    ((∃ h, hr = some h ∧ 55 ≤ h ∧ h ≤ 85) →
      (∃ b, body = some b ∧ 36 ≤ b ∧ b ≤ 372/10) →
      localClassify hr body = "good") ∧
    (¬((∃ h, hr = some h ∧ 100 < h) ∨ (∃ b, body = some b ∧ 378/10 < b)) →
      ¬((∃ h, hr = some h ∧ 55 ≤ h ∧ h ≤ 85) ∧
        (∃ b, body = some b ∧ 36 ≤ b ∧ b ≤ 372/10)) →
      localClassify hr body = "fine") := by
  refine ⟨?_, ?_, ?_⟩
  · rintro (⟨h0, rfl, hgt⟩ | ⟨b0, rfl, hgt⟩)
    · simp [localClassify, hgt]
    · simp [localClassify, hgt]
  · rintro ⟨h0, rfl, h1, h2⟩ ⟨b0, rfl, b1, b2⟩
    simp [localClassify, h1, h2, b1, b2,
      not_lt.mpr (show h0 ≤ 100 by linarith),
      not_lt.mpr (show b0 ≤ 378/10 by linarith)]
  · intro hnbad hngood
    cases hr with
    | none =>
      cases body with
      | none => simp [localClassify]
      | some b =>
        have hnb : ¬(378/10 < b) := fun hgt => hnbad (Or.inr ⟨b, rfl, hgt⟩)
        simp [localClassify, hnb]
    | some h =>
      have hnh : ¬(100 < h) := fun hgt => hnbad (Or.inl ⟨h, rfl, hgt⟩)
      cases body with
      | none => simp [localClassify, hnh]
      | some b =>
        have hnb : ¬(378/10 < b) := fun hgt => hnbad (Or.inr ⟨b, rfl, hgt⟩)
        have hng : ¬((55 ≤ h ∧ h ≤ 85) ∧ (36 ≤ b ∧ b ≤ 372/10)) := by
          rintro ⟨⟨x1, x2⟩, ⟨y1, y2⟩⟩
          exact hngood ⟨⟨h, rfl, x1, x2⟩, ⟨b, rfl, y1, y2⟩⟩
        simp [localClassify, hnh, hnb, hng]

/-- C3 witness: mean HR 101 with a null body mean classifies "bad" (the
spec's boundary example). -/
theorem localClassify_spec_w : localClassify (some 101) none = "bad" :=
  (localClassify_spec (some 101) none).1 (Or.inl ⟨101, rfl, by norm_num⟩)

/-! ## Claim C8 -/

/-- C8: per environment cycle, the DHT source updates ambient temperature
and humidity only when both reads are valid (otherwise both keep their
previous values), and the MLX90614 source sets both outputs to "missing"
when either register read fails, else converts each raw register value by
exactly raw * 0.02 − 273.15. -/
theorem envStep_spec (snap : EnvSnapshot) (t h : Option ℚ) (ambRaw objRaw : Option ℕ) :
    ((t = none ∨ h = none) →
      (envStep snap t h ambRaw objRaw).g_temp = snap.g_temp ∧
      (envStep snap t h ambRaw objRaw).g_hum = snap.g_hum) ∧
    (∀ tv hv, t = some tv → h = some hv →
      (envStep snap t h ambRaw objRaw).g_temp = some tv ∧
      (envStep snap t h ambRaw objRaw).g_hum = some hv) ∧
    ((ambRaw = none ∨ objRaw = none) →
      (envStep snap t h ambRaw objRaw).g_mlxAmb = none ∧
      (envStep snap t h ambRaw objRaw).g_mlxObj = none) ∧
    (∀ a o, ambRaw = some a → objRaw = some o →
      (envStep snap t h ambRaw objRaw).g_mlxAmb = some ((a : ℚ) * (2/100) - 27315/100) ∧
      (envStep snap t h ambRaw objRaw).g_mlxObj = some ((o : ℚ) * (2/100) - 27315/100)) := by
  refine ⟨?_, ?_, ?_, ?_⟩
  · rintro (rfl | rfl)
    · cases h <;> cases ambRaw <;> cases objRaw <;> simp [envStep, readMLX90614]
    · cases t <;> cases ambRaw <;> cases objRaw <;> simp [envStep, readMLX90614]
  · rintro tv hv rfl rfl
    cases ambRaw <;> cases objRaw <;> simp [envStep, readMLX90614]
  · rintro (rfl | rfl)
    · cases t <;> cases h <;> cases objRaw <;> simp [envStep, readMLX90614]
    · cases t <;> cases h <;> cases ambRaw <;> simp [envStep, readMLX90614]
  · rintro a o rfl rfl
    cases t <;> cases h <;> simp [envStep, readMLX90614, mlxRawToC]

/-- C8 witness: a concrete cycle with a failed DHT read (NaN temperature)
and successful MLX reads of raw 15000 (26.85 °C). -/
theorem envStep_spec_w :
    (envStep ⟨some 21, some 40, none, none⟩ none (some 41) (some 15000) (some 15000)).g_temp
        = some 21 ∧
    (envStep ⟨some 21, some 40, none, none⟩ none (some 41) (some 15000) (some 15000)).g_mlxObj
        = some ((15000 : ℚ) * (2/100) - 27315/100) :=
  ⟨((envStep_spec ⟨some 21, some 40, none, none⟩ none (some 41) (some 15000)
      (some 15000)).1 (Or.inl rfl)).1,
   ((envStep_spec ⟨some 21, some 40, none, none⟩ none (some 41) (some 15000)
      (some 15000)).2.2.2 15000 15000 rfl rfl).2⟩


/-! ## PulseDetector helper lemmas -/

/-- The filter-persistence and zero-crossing steps touch only `lp`,
`baseline`, `thresh` and `inPeak`; all BPM bookkeeping and beat stamps
pass through from the beat phase. -/
theorem pulsePreTimeout_fields (s : PulseState) (raw : ℤ) (now : ℕ) :
    (pulsePreTimeout s raw now).bpmBuf = (pulseBeatPhase s raw now).bpmBuf ∧
    (pulsePreTimeout s raw now).bpmIdx = (pulseBeatPhase s raw now).bpmIdx ∧
    (pulsePreTimeout s raw now).bpmCount = (pulseBeatPhase s raw now).bpmCount ∧
    (pulsePreTimeout s raw now).g_bpm = (pulseBeatPhase s raw now).g_bpm ∧
    (pulsePreTimeout s raw now).lastBeatMs = (pulseBeatPhase s raw now).lastBeatMs ∧
    (pulsePreTimeout s raw now).g_lastBeatMs = (pulseBeatPhase s raw now).g_lastBeatMs := by
  simp only [pulsePreTimeout]
  split <;> exact ⟨rfl, rfl, rfl, rfl, rfl, rfl⟩

/-- The silence timeout touches only `g_bpm`. -/
theorem pulseStep_fields (s : PulseState) (raw : ℤ) (now : ℕ) :
    (pulseStep s raw now).bpmBuf = (pulsePreTimeout s raw now).bpmBuf ∧
    (pulseStep s raw now).bpmIdx = (pulsePreTimeout s raw now).bpmIdx ∧
    (pulseStep s raw now).bpmCount = (pulsePreTimeout s raw now).bpmCount ∧
    (pulseStep s raw now).lastBeatMs = (pulsePreTimeout s raw now).lastBeatMs ∧
    (pulseStep s raw now).g_lastBeatMs = (pulsePreTimeout s raw now).g_lastBeatMs := by
  simp only [pulseStep]
  split <;> exact ⟨rfl, rfl, rfl, rfl, rfl⟩

/-! ## Claim C9 -/

/-- C9: after any sample step, if more than 3000 ms have elapsed since the
last registered beat (as recorded in `g_lastBeatMs` at the end of the
step), the reported BPM is exactly 0, regardless of the BPM buffer. -/
theorem pulse_silence_timeout (s : PulseState) (raw : ℤ) (now : ℕ)
    (h : 3000 < now - (pulseStep s raw now).g_lastBeatMs) :
    (pulseStep s raw now).g_bpm = 0 := by
  have hg : (pulseStep s raw now).g_lastBeatMs
      = (pulsePreTimeout s raw now).g_lastBeatMs :=
    (pulseStep_fields s raw now).2.2.2.2
  rw [hg] at h
  simp only [pulseStep]
  rw [if_pos h]

/-- C9 witness: a quiet sample at t = 5000 ms, last beat at 1 ms. -/
theorem pulse_silence_timeout_w :
    3000 < 5000 - (pulseStep cexPulse 0 5000).g_lastBeatMs ∧
    (pulseStep cexPulse 0 5000).g_bpm = 0 :=
  ⟨by decide, pulse_silence_timeout cexPulse 0 5000 (by decide)⟩


/-! ## Claim C10 -/

/-- Arithmetic mean of finitely many values each strictly between 40 and
200 stays strictly between 40 and 200. -/
theorem mean_bounds (f : ℕ → ℚ) (n : ℕ) (hn : 0 < n)
    (h : ∀ i < n, 40 < f i ∧ f i < 200) :
    40 < (∑ i ∈ Finset.range n, f i) / n ∧
    (∑ i ∈ Finset.range n, f i) / n < 200 := by
  have hnq : (0 : ℚ) < n := by exact_mod_cast hn
  have hne : (Finset.range n).Nonempty := by
    simpa [Finset.nonempty_range_iff] using hn.ne'
  have hlo : (40 : ℚ) * n < ∑ i ∈ Finset.range n, f i := by
    have := Finset.sum_lt_sum_of_nonempty hne
      (f := fun _ => (40 : ℚ)) (g := f)
      (fun i hi => (h i (Finset.mem_range.mp hi)).1)
    simpa [Finset.sum_const, Finset.card_range, nsmul_eq_mul, mul_comm] using this
  have hhi : (∑ i ∈ Finset.range n, f i) < 200 * n := by
    have := Finset.sum_lt_sum_of_nonempty hne
      (f := f) (g := fun _ => (200 : ℚ))
      (fun i hi => (h i (Finset.mem_range.mp hi)).2)
    simpa [Finset.sum_const, Finset.card_range, nsmul_eq_mul, mul_comm] using this
  constructor
  · rw [lt_div_iff₀ hnq]
    linarith
  · rw [div_lt_iff₀ hnq]
    linarith

/-- A BPM push with an inter-beat interval strictly between 300 and
1500 ms preserves the detector invariant. -/
theorem pushBpm_inv (s : PulseState) (ibi : ℕ) (hinv : PulseInv s)
    (h1 : 300 < ibi) (h2 : ibi < 1500) : PulseInv (pushBpm s ibi) := by
  obtain ⟨hc4, hidx, hfill, hslots, _⟩ := hinv
  have hibi0 : (0 : ℚ) < (ibi : ℚ) := by
    exact_mod_cast Nat.pos_of_ne_zero (by omega)
  have hb1 : (40 : ℚ) < 60000 / (ibi : ℚ) := by
    rw [lt_div_iff₀ hibi0]
    have : (ibi : ℚ) ≤ 1499 := by exact_mod_cast Nat.le_of_lt_succ h2
    linarith
  have hb2 : 60000 / (ibi : ℚ) < 200 := by
    rw [div_lt_iff₀ hibi0]
    have : (301 : ℚ) ≤ (ibi : ℚ) := by exact_mod_cast h1
    linarith
  have hcount : (pushBpm s ibi).bpmCount
      = if s.bpmCount < 4 then s.bpmCount + 1 else s.bpmCount := rfl
  have hbuf : (pushBpm s ibi).bpmBuf
      = Function.update s.bpmBuf s.bpmIdx (60000 / (ibi : ℚ)) := rfl
  have hslots' : ∀ i < (pushBpm s ibi).bpmCount,
      40 < (pushBpm s ibi).bpmBuf i ∧ (pushBpm s ibi).bpmBuf i < 200 := by
    intro i hi
    rw [hbuf, Function.update_apply]
    by_cases hie : i = s.bpmIdx
    · rw [if_pos hie]
      exact ⟨hb1, hb2⟩
    · rw [if_neg hie]
      refine hslots i ?_
      rw [hcount] at hi
      by_cases hlt : s.bpmCount < 4
      · rw [if_pos hlt] at hi
        have hieq := hfill hlt
        omega
      · rw [if_neg hlt] at hi
        exact hi
  have hcpos : 0 < (pushBpm s ibi).bpmCount := by
    rw [hcount]
    by_cases hlt : s.bpmCount < 4 <;> [rw [if_pos hlt] ; rw [if_neg hlt]] <;> omega
  refine ⟨?_, ?_, ?_, hslots', Or.inr ?_⟩
  · rw [hcount]
    by_cases hlt : s.bpmCount < 4 <;> [rw [if_pos hlt] ; rw [if_neg hlt]] <;> omega
  · exact Nat.mod_lt _ (by norm_num)
  · intro hlt'
    rw [hcount] at hlt' ⊢
    by_cases hlt : s.bpmCount < 4
    · rw [if_pos hlt] at hlt' ⊢
      have hieq := hfill hlt
      show (s.bpmIdx + 1) % 4 = s.bpmCount + 1
      omega
    · rw [if_neg hlt] at hlt'
      omega
  · have hgb : (pushBpm s ibi).g_bpm
        = (∑ i ∈ Finset.range (pushBpm s ibi).bpmCount, (pushBpm s ibi).bpmBuf i)
          / ((pushBpm s ibi).bpmCount : ℚ) := rfl
    rw [hgb]
    exact mean_bounds _ _ hcpos hslots'

/-- One sample step preserves the detector invariant. -/
theorem pulseStep_inv (s : PulseState) (raw : ℤ) (now : ℕ)
    (hinv : PulseInv s) : PulseInv (pulseStep s raw now) := by
  have h1 : PulseInv (pulseBeatPhase s raw now) := by
    simp only [pulseBeatPhase]
    by_cases hb : beatCond s raw now = true
    · rw [if_pos hb]
      by_cases hp : 0 < s.lastBeatMs ∧ 300 < now - s.lastBeatMs ∧
          now - s.lastBeatMs < 1500
      · rw [if_pos hp]
        exact pushBpm_inv s _ hinv hp.2.1 hp.2.2
      · rw [if_neg hp]
        exact hinv
    · rw [if_neg (by simpa using hb)]
      exact hinv
  have h2 : PulseInv (pulsePreTimeout s raw now) := by
    simp only [pulsePreTimeout]
    split
    · exact h1
    · exact h1
  simp only [pulseStep]
  split
  · obtain ⟨a, b, c, d, _⟩ := h2
    exact ⟨a, b, c, d, Or.inl rfl⟩
  · exact h2

/-- C10: in every reachable detector state (initially and after every
sample step) the reported smoothed BPM is either exactly 0 or strictly
between 40 and 200. -/
theorem pulse_bpm_range_invariant (s : PulseState) (hs : PulseReachable s) :
    s.g_bpm = 0 ∨ (40 < s.g_bpm ∧ s.g_bpm < 200) := by
  have hinv : PulseInv s := by
    induction hs with
    | init b =>
      refine ⟨by norm_num [initPulse], by norm_num [initPulse],
        by norm_num [initPulse], ?_, Or.inl rfl⟩
      intro i hi
      simp [initPulse] at hi
    | step raw now _ ih => exact pulseStep_inv _ raw now ih
  exact hinv.2.2.2.2

/-- C10 witness: the invariant at the initial state. -/
theorem pulse_bpm_range_invariant_w :
    (initPulse 0).g_bpm = 0 ∨ (40 < (initPulse 0).g_bpm ∧ (initPulse 0).g_bpm < 200) :=
  pulse_bpm_range_invariant (initPulse 0) (PulseReachable.init 0)


/-! ## Claim C6 -/

/-- C6 counterexample: the claim says a BPM push happens whenever a
previous beat exists and the inter-beat interval lies within
[300 ms, 1500 ms].  The code requires `ibi < MAX_IBI_MS` strictly: at an
interval of exactly 1500 ms a beat is registered (timestamp updated) but
nothing is pushed — the buffer fill count stays 0 instead of becoming 1. -/
theorem pulse_ibi_upper_cex :
    beatCond cexPulse 4000 1501 = true ∧
    0 < cexPulse.lastBeatMs ∧
    1501 - cexPulse.lastBeatMs = 1500 ∧
    (300 : ℕ) ≤ 1500 ∧ (1500 : ℕ) ≤ 1500 ∧
    (pulseStep cexPulse 4000 1501).lastBeatMs = 1501 ∧
    (pulseStep cexPulse 4000 1501).g_lastBeatMs = 1501 ∧
    cexPulse.bpmCount = 0 ∧
    (pulseStep cexPulse 4000 1501).bpmCount = 0 := by
  decide

/-- C6 (amended): a beat is registered exactly when the AC value exceeds
the current (post-update) threshold while the "inside peak" flag is clear
and more than 300 ms have elapsed since the last beat; on registration,
if a previous beat exists and the interval is strictly between 300 ms and
1500 ms (the claim's closed upper endpoint is excluded by the code),
60000/ibi is written into the 4-slot circular buffer (oldest overwritten)
and the reported BPM becomes the mean of the valid slots; otherwise the
buffer is untouched. -/
theorem pulse_beat_spec (s : PulseState) (raw : ℤ) (now : ℕ) :
    (beatCond s raw now = true ↔
      (s.inPeak = false ∧ threshOf s raw < acOf s raw ∧ 300 < now - s.lastBeatMs)) ∧
    (beatCond s raw now = true →
      (pulseStep s raw now).lastBeatMs = now ∧
      (pulseStep s raw now).g_lastBeatMs = now ∧
      (0 < s.lastBeatMs → now - s.lastBeatMs < 1500 →
        (pulseStep s raw now).bpmBuf
            = Function.update s.bpmBuf s.bpmIdx (60000 / ((now - s.lastBeatMs : ℕ) : ℚ)) ∧
        (pulseStep s raw now).bpmIdx = (s.bpmIdx + 1) % 4 ∧
        (pulseStep s raw now).bpmCount
            = (if s.bpmCount < 4 then s.bpmCount + 1 else s.bpmCount) ∧
        (pulseStep s raw now).g_bpm
            = (∑ i ∈ Finset.range (pulseStep s raw now).bpmCount,
                (pulseStep s raw now).bpmBuf i) / ((pulseStep s raw now).bpmCount : ℚ)) ∧
      (¬(0 < s.lastBeatMs ∧ now - s.lastBeatMs < 1500) →
        (pulseStep s raw now).bpmBuf = s.bpmBuf ∧
        (pulseStep s raw now).bpmCount = s.bpmCount)) ∧
    (beatCond s raw now = false →
      (pulseStep s raw now).lastBeatMs = s.lastBeatMs ∧
      (pulseStep s raw now).bpmBuf = s.bpmBuf ∧
      (pulseStep s raw now).bpmCount = s.bpmCount) := by
  obtain ⟨hbuf3, hidx3, hcount3, hlast3, hglast3⟩ := pulseStep_fields s raw now
  obtain ⟨hbuf2, hidx2, hcount2, hgbpm2, hlast2, hglast2⟩ := pulsePreTimeout_fields s raw now
  have hiff : beatCond s raw now = true ↔
      (s.inPeak = false ∧ threshOf s raw < acOf s raw ∧ 300 < now - s.lastBeatMs) := by
    simp [beatCond, and_assoc]
  refine ⟨hiff, ?_, ?_⟩
  · intro hb
    have hb300 : 300 < now - s.lastBeatMs := (hiff.mp hb).2.2
    have hglastp : (pulseBeatPhase s raw now).g_lastBeatMs = now := by
      simp only [pulseBeatPhase]
      rw [if_pos hb]
    have hlastp : (pulseBeatPhase s raw now).lastBeatMs = now := by
      simp only [pulseBeatPhase]
      rw [if_pos hb]
    have hstep : pulseStep s raw now = pulsePreTimeout s raw now := by
      simp only [pulseStep]
      rw [if_neg (by rw [hglast2, hglastp]; omega)]
    refine ⟨by rw [hstep, hlast2, hlastp], by rw [hstep, hglast2, hglastp], ?_, ?_⟩
    · intro hp1 hp2
      have hguard : 0 < s.lastBeatMs ∧ 300 < now - s.lastBeatMs ∧
          now - s.lastBeatMs < 1500 := ⟨hp1, hb300, hp2⟩
      have hbp : pulseBeatPhase s raw now
          = { pushBpm s (now - s.lastBeatMs) with
              inPeak := true, lastBeatMs := now, g_lastBeatMs := now } := by
        simp only [pulseBeatPhase]
        rw [if_pos hb, if_pos hguard]
      have hbufp : (pulseBeatPhase s raw now).bpmBuf
          = Function.update s.bpmBuf s.bpmIdx (60000 / ((now - s.lastBeatMs : ℕ) : ℚ)) := by
        rw [hbp]; rfl
      have hidxp : (pulseBeatPhase s raw now).bpmIdx = (s.bpmIdx + 1) % 4 := by
        rw [hbp]; rfl
      have hcountp : (pulseBeatPhase s raw now).bpmCount
          = (if s.bpmCount < 4 then s.bpmCount + 1 else s.bpmCount) := by
        rw [hbp]; rfl
      refine ⟨by rw [hstep, hbuf2, hbufp], by rw [hstep, hidx2, hidxp],
        by rw [hstep, hcount2, hcountp], ?_⟩
      rw [hstep, hgbpm2, hbuf2, hcount2, hbp]
      rfl
    · intro hnp
      have hguard : ¬(0 < s.lastBeatMs ∧ 300 < now - s.lastBeatMs ∧
          now - s.lastBeatMs < 1500) := by
        rintro ⟨a, _, c⟩
        exact hnp ⟨a, c⟩
      have hbp : pulseBeatPhase s raw now
          = { s with inPeak := true, lastBeatMs := now, g_lastBeatMs := now } := by
        simp only [pulseBeatPhase]
        rw [if_pos hb, if_neg hguard]
      exact ⟨by rw [hstep, hbuf2, hbp], by rw [hstep, hcount2, hbp]⟩
  · intro hb
    have hbp : pulseBeatPhase s raw now = s := by
      simp only [pulseBeatPhase]
      rw [if_neg (by simp [hb])]
    exact ⟨by rw [hlast3, hlast2, hbp], by rw [hbuf3, hbuf2, hbp],
      by rw [hcount3, hcount2, hbp]⟩

/-- C6 witness: a beat at t = 1500 ms after a previous beat at t = 1 ms
(interval 1499 ms) pushes 60000/1499 and fills one slot. -/
theorem pulse_beat_spec_w :
    (pulseStep cexPulse 4000 1500).bpmCount = 1 ∧
    (pulseStep cexPulse 4000 1500).lastBeatMs = 1500 := by
  have h := (pulse_beat_spec cexPulse 4000 1500).2.1 (by decide)
  obtain ⟨hlast, _, hpush, _⟩ := h
  obtain ⟨_, _, hcount, _⟩ := hpush (by decide) (by decide)
  exact ⟨by rw [hcount]; decide, hlast⟩

end HMS
